import Mathlib

/-!
Shallow embedding of the dbt_up repository (src/validate_lineage.py and
src/dbt_up/publish_manifest.py).

Python dicts are modelled as association lists (insertion order preserved,
first binding wins on lookup, as for JSON-parsed dicts whose keys are unique).
Python strings are modelled as Lean `String`, with `startswith` and the `in`
substring test computed over the character list.  File-system state and S3
state are modelled as explicit write logs, the most recent write first.
-/

namespace DbtUp

/-- Python `s.startswith(p)`, computed on the character lists. -/
def pyStartswith (s p : String) : Bool :=
  p.data.isPrefixOf s.data

/-- Contiguous-sublist test on character lists: `sub` occurs somewhere in `s`. -/
def containsSub (sub : List Char) : List Char → Bool
  | [] => sub.isEmpty
  | c :: tail => sub.isPrefixOf (c :: tail) || containsSub sub tail

/-- Python `sub in s` (substring containment), computed on the character lists. -/
def pyContains (s sub : String) : Bool :=
  containsSub sub.data s.data

/-- First-match association-list lookup, modelling Python `d[k]` / `k in d`. -/
def lookupKey {α : Type} : List (String × α) → String → Option α
  | [], _ => none
  | kv :: rest, k => if kv.1 = k then some kv.2 else lookupKey rest k

/-- The `depends_on` record of a manifest node: `node["depends_on"]`, with its
optional `"nodes"` key. -/
structure DependsOn where
  nodes : Option (List String)
deriving DecidableEq

/-- A manifest node record: `resource_type`, `access` and `depends_on` are all
optional keys read with `node.get(...)`. -/
structure Node where
  resource_type : Option String
  access : Option String
  depends_on : Option DependsOn
deriving DecidableEq

/-- The manifest `metadata` object with its optional `project_name`. -/
structure Metadata where
  project_name : Option String
deriving DecidableEq

/-- A parsed manifest document.  Each top-level key is optional because the
code reads them with `manifest.get(key, default)`. -/
structure Manifest where
  parent_map : Option (List (String × List String))
  nodes : Option (List (String × Node))
  metadata : Option Metadata
deriving DecidableEq

/-- `node.get("depends_on", \x7b\x7d).get("nodes", [])` from
`find_cross_project_refs_in_nodes` (src/validate_lineage.py line 77). -/
def dependsOnNodes (node : Node) : List String :=
  match node.depends_on with
  | none => []
  | some d => d.nodes.getD []

/-- The membership test of the list comprehension in `find_cross_project_refs`
(src/validate_lineage.py lines 56-59): Python
`parent.startswith(f"model.X.") or f".X." in parent and parent.startswith("source.")`,
where `and` binds tighter than `or`. -/
def isUpstreamParent (upstream_project parent : String) : Bool :=
  pyStartswith parent ("model." ++ upstream_project ++ ".") ||
    (pyContains parent ("." ++ upstream_project ++ ".") &&
      pyStartswith parent "source.")

/-- The membership test of the list comprehension in
`find_cross_project_refs_in_nodes` (src/validate_lineage.py lines 78-81),
written there a second time with the same wording. -/
def isUpstreamDep (upstream_project dep : String) : Bool :=
  pyStartswith dep ("model." ++ upstream_project ++ ".") ||
    (pyContains dep ("." ++ upstream_project ++ ".") &&
      pyStartswith dep "source.")

/-- `find_cross_project_refs` (src/validate_lineage.py lines 42-65): walk
`parent_map`, keep for each node the parents matching `isUpstreamParent`, and
record the node only when the kept list is non-empty. -/
def find_cross_project_refs (manifest : Manifest) (upstream_project : String) :
    List (String × List String) :=
  (manifest.parent_map.getD []).filterMap fun kv =>
    let upstream_parents := kv.2.filter (isUpstreamParent upstream_project)
    if upstream_parents.isEmpty then none else some (kv.1, upstream_parents)

/-- `find_cross_project_refs_in_nodes` (src/validate_lineage.py lines 68-87):
walk `nodes`, keep for each node the `depends_on.nodes` entries matching
`isUpstreamDep`, and record the node only when the kept list is non-empty. -/
def find_cross_project_refs_in_nodes (manifest : Manifest)
    (upstream_project : String) : List (String × List String) :=
  (manifest.nodes.getD []).filterMap fun kv =>
    let upstream_deps := (dependsOnNodes kv.2).filter (isUpstreamDep upstream_project)
    if upstream_deps.isEmpty then none else some (kv.1, upstream_deps)

/-- Python dict merge `\x7b**a, **b\x7d` on association lists: keys of `a`
first (their values replaced by `b`'s value when `b` also binds the key),
then the keys of `b` that `a` does not bind. -/
def dictMerge (a b : List (String × List String)) : List (String × List String) :=
  (a.map fun kv => (kv.1, (lookupKey b kv.1).getD kv.2)) ++
    b.filter fun kv => (lookupKey a kv.1).isNone

/-- `all_refs = \x7b**parent_refs, **node_refs\x7d`
(src/validate_lineage.py line 113). -/
def all_refs (manifest : Manifest) (upstream_project : String) :
    List (String × List String) :=
  dictMerge (find_cross_project_refs manifest upstream_project)
    (find_cross_project_refs_in_nodes manifest upstream_project)

/-- The failure diagnostic of `validate_lineage` (src/validate_lineage.py
line 116). -/
def noRefsMsg (upstream_project : String) : String :=
  "No cross-project references to \x27" ++ upstream_project ++
    "\x27 found in manifest"

/-- The strong success diagnostic of `validate_lineage` (src/validate_lineage.py
line 131). -/
def strongMsg : String :=
  "Cross-project lineage validated successfully"

/-- The weaker success diagnostic of `validate_lineage` (src/validate_lineage.py
line 134). -/
def declaredOnlyMsg : String :=
  "Partial lineage found (depends_on only)"

/-- The pure classification part of `validate_lineage`
(src/validate_lineage.py lines 90-134), after the manifest was loaded: the
printing is dropped, the returned pair is kept exactly. -/
def validate_lineage_core (manifest : Manifest) (upstream_project : String) :
    Bool × String :=
  let parent_refs := find_cross_project_refs manifest upstream_project
  let node_refs := find_cross_project_refs_in_nodes manifest upstream_project
  let combined := dictMerge parent_refs node_refs
  if combined.isEmpty then
    (false, noRefsMsg upstream_project)
  else if !parent_refs.isEmpty then
    (true, strongMsg)
  else
    (true, declaredOnlyMsg)

/-- What the file system holds at a manifest path: the file can be absent
(`FileNotFoundError`), present but not valid JSON (`json.JSONDecodeError`),
or parse to a manifest document. -/
inductive ManifestFile where
  | absent
  | unparseable
  | parsed (m : Manifest)
deriving DecidableEq

/-- The error kinds a validation run can raise: the spec calls them
`NotFoundError` and `FormatError`. -/
inductive LoadError where
  | notFoundError (msg : String)
  | formatError (msg : String)
deriving DecidableEq

/-- `load_manifest` (src/validate_lineage.py lines 33-39): raise
`FileNotFoundError` when the path does not exist, let `json.load` raise when
the content is unparseable, and otherwise return the parsed document as is. -/
def load_manifest : ManifestFile → Except LoadError Manifest
  | .absent => .error (.notFoundError "Manifest not found")
  | .unparseable => .error (.formatError "Expecting value")
  | .parsed m => .ok m

/-- `validate_lineage` (src/validate_lineage.py lines 90-134) including the
initial `load_manifest` call; load errors propagate to the caller. -/
def validate_lineage (file : ManifestFile) (upstream_project : String) :
    Except LoadError (Bool × String) :=
  match load_manifest file with
  | .error e => .error e
  | .ok m => .ok (validate_lineage_core m upstream_project)

/-- One iteration of the batch loop in `main` (src/validate_lineage.py lines
190-204): a raised `FileNotFoundError` or any other exception is caught and
recorded as a failed result whose message is the exception text. -/
def run_one (file : ManifestFile) (upstream_project : String) : Bool × String :=
  match validate_lineage file upstream_project with
  | .ok r => r
  | .error (.notFoundError msg) => (false, msg)
  | .error (.formatError msg) => (false, msg)

/-- The batch loop of `main` (src/validate_lineage.py lines 187-204):
`all_passed` starts `True` and is cleared by every failed result; results
accumulate in order. -/
def main_batch (files : List ManifestFile) (upstream_project : String) :
    Bool × List (Bool × String) :=
  files.foldl
    (fun acc f =>
      let r := run_one f upstream_project
      (acc.1 && r.1, acc.2 ++ [r]))
    (true, [])

/-- The exit code of `main` (src/validate_lineage.py lines 216-222):
`sys.exit(0)` when `all_passed` else `sys.exit(1)`. -/
def exit_code (files : List ManifestFile) (upstream_project : String) : Nat :=
  if (main_batch files upstream_project).1 then 0 else 1

/-! Embedding of src/dbt_up/publish_manifest.py.  A local-file-system store and
an S3 object store are write logs (most recent write first); `shutil.copy2` and
`s3_client.put_object` both append the manifest content at the target. -/

/-- The local registry state: pairs of path (as components) and file content. -/
abbrev FsStore := List (List String × String)

/-- The S3 state: pairs of object key and object body. -/
abbrev S3Store := List (String × String)

/-- Writing a file: the newest write shadows older writes at the same path. -/
def write_fs (store : FsStore) (path : List String) (content : String) : FsStore :=
  (path, content) :: store

/-- Reading a file back: the most recent write at the path, if any. -/
def read_fs : FsStore → List String → Option String
  | [], _ => none
  | (p, c) :: rest, q => if p = q then some c else read_fs rest q

/-- Putting an S3 object: the newest put shadows older puts at the same key. -/
def write_s3 (store : S3Store) (key body : String) : S3Store :=
  (key, body) :: store

/-- Reading an S3 object back: the most recent put at the key, if any. -/
def read_s3 : S3Store → String → Option String
  | [], _ => none
  | (k, b) :: rest, q => if k = q then some b else read_s3 rest q

/-- `publish_local` (src/dbt_up/publish_manifest.py lines 42-65): copy the
manifest content to `registry/<project>/<env>/latest/manifest.json` and to
`registry/<project>/<env>/history/<timestamp>/manifest.json`; the timestamp is
taken as a parameter here, the code computes it at call time. -/
def publish_local (manifest_content : String) (project_name env timestamp : String)
    (registry_base : List String) (store : FsStore) :
    FsStore × List String × List String :=
  let latest_path := registry_base ++ [project_name, env, "latest", "manifest.json"]
  let history_path :=
    registry_base ++ [project_name, env, "history", timestamp, "manifest.json"]
  let store1 := write_fs store latest_path manifest_content
  let store2 := write_fs store1 history_path manifest_content
  (store2, latest_path, history_path)

/-- `publish_s3` (src/dbt_up/publish_manifest.py lines 68-104): put the manifest
content at the latest key and at the timestamped history key, returning the two
`s3://` locations. -/
def publish_s3 (manifest_content : String) (project_name env bucket timestamp : String)
    (store : S3Store) : S3Store × String × String :=
  let latest_key := "registry/" ++ project_name ++ "/" ++ env ++ "/latest/manifest.json"
  let history_key :=
    "registry/" ++ project_name ++ "/" ++ env ++ "/history/" ++ timestamp ++
      "/manifest.json"
  let store1 := write_s3 store latest_key manifest_content
  let store2 := write_s3 store1 history_key manifest_content
  (store2, "s3://" ++ bucket ++ "/" ++ latest_key,
    "s3://" ++ bucket ++ "/" ++ history_key)

/-- `public_models` (src/dbt_up/publish_manifest.py lines 125-128): the node
identifiers whose record has `resource_type == "model"` and `access == "public"`. -/
def public_models (manifest : Manifest) : List String :=
  (manifest.nodes.getD []).filterMap fun kv =>
    if kv.2.resource_type = some "model" ∧ kv.2.access = some "public" then
      some kv.1
    else none

/-- What the publisher finds at the fixed manifest path: absent file, a file
`json.load` rejects, or a file with raw byte content that parses. -/
inductive PubFile where
  | absent
  | unparseable
  | present (raw : String) (parsed : Manifest)
deriving DecidableEq

/-- The error kinds the publisher can raise: `FileNotFoundError` from
`get_manifest_path`, a JSON decode error, and the `ValueError` for a missing
bucket (the spec calls it `ConfigurationError`). -/
inductive PubError where
  | notFoundError (msg : String)
  | formatError (msg : String)
  | configurationError (msg : String)
deriving DecidableEq

/-- A published location: a local path or an `s3://` URI. -/
inductive Location where
  | fsPath (p : List String)
  | s3Uri (u : String)
deriving DecidableEq

/-- The `FileNotFoundError` message of `get_manifest_path`
(src/dbt_up/publish_manifest.py lines 34-38), with the path abstracted. -/
def manifestMissingMsg : String :=
  "Manifest not found. Run \x27dbt compile\x27 or \x27dbt build\x27 first."

/-- The `ValueError` message for remote mode without a bucket
(src/dbt_up/publish_manifest.py line 141). -/
def bucketMissingMsg : String :=
  "S3 bucket required. Set --bucket or DBT_MESH_BUCKET env var"

/-- `main` of the publisher (src/dbt_up/publish_manifest.py lines 107-144):
`get_manifest_path` first (raising before any write when the file is absent),
then `json.load`, then the advisory public-model scan (the returned Bool is
true when the empty-set warning was printed), then one publish according to
the mode.  Both stores are threaded so that an early error provably leaves
them untouched. -/
def publisher_main (file : PubFile) (localMode : Bool) (bucket : Option String)
    (env project : String) (registry_base : List String) (timestamp : String)
    (fs : FsStore) (s3 : S3Store) :
    Except PubError (Bool × Location × Location) × FsStore × S3Store :=
  match file with
  | .absent => (.error (.notFoundError manifestMissingMsg), fs, s3)
  | .unparseable => (.error (.formatError "Expecting value"), fs, s3)
  | .present raw parsed =>
    let warned := (public_models parsed).isEmpty
    if localMode then
      let r := publish_local raw project env timestamp registry_base fs
      (.ok (warned, .fsPath r.2.1, .fsPath r.2.2), r.1, s3)
    else
      match bucket with
      | none => (.error (.configurationError bucketMissingMsg), fs, s3)
      | some b =>
        let r := publish_s3 raw project env b timestamp s3
        (.ok (warned, .s3Uri r.2.1, .s3Uri r.2.2), fs, r.1)

/-! Example manifests used to instantiate the theorems below. -/

/-- A manifest whose node `model.down.a` has an upstream parent in
`parent_map` and a different upstream dependency in `depends_on`. -/
def mfBoth : Manifest :=
  { parent_map := some [("model.down.a", ["model.up.x", "model.other.z"])],
    nodes := some [("model.down.a",
      { resource_type := some "model", access := none,
        depends_on := some { nodes := some ["source.down.up.y"] } })],
    metadata := none }

/-- A manifest whose only upstream reference sits in `parent_map`. -/
def mfParentOnly : Manifest :=
  { parent_map := some [("model.down.a", ["model.up.x"])],
    nodes := some [],
    metadata := none }

/-- A manifest whose only upstream reference sits in `depends_on`. -/
def mfNodeOnly : Manifest :=
  { parent_map := some [],
    nodes := some [("model.down.a",
      { resource_type := some "model", access := none,
        depends_on := some { nodes := some ["source.down.up.y"] } })],
    metadata := none }

/-- A manifest with no upstream references at all. -/
def mfNoRefs : Manifest :=
  { parent_map := some [("model.down.a", ["model.down.b"])],
    nodes := some [],
    metadata := none }

/-- A JSON document that parses but has none of the keys the validator reads. -/
def mfMissingKeys : Manifest :=
  { parent_map := none, nodes := none, metadata := none }

/-- The same document with the keys present but empty. -/
def mfEmptyKeys : Manifest :=
  { parent_map := some [], nodes := some [], metadata := some { project_name := none } }

/-! Lookup lemmas for the association-list model of Python dicts. -/

theorem lookupKey_append {α : Type} (xs ys : List (String × α)) (k : String) :
    lookupKey (xs ++ ys) k =
      match lookupKey xs k with
      | some v => some v
      | none => lookupKey ys k := by
  induction xs with
  | nil => simp [lookupKey]
  | cons kv rest ih =>
    by_cases h : kv.1 = k <;> simp [lookupKey, h, ih]

theorem lookupKey_map_override (a b : List (String × List String)) (k : String) :
    lookupKey (a.map fun kv => (kv.1, (lookupKey b kv.1).getD kv.2)) k =
      (lookupKey a k).map fun v => (lookupKey b k).getD v := by
  induction a with
  | nil => simp [lookupKey]
  | cons kv rest ih =>
    by_cases h : kv.1 = k
    · subst h
      simp [lookupKey]
    · simp [lookupKey, h, ih]

theorem lookupKey_filter_isNone (a b : List (String × List String)) (k : String) :
    lookupKey (b.filter fun kv => (lookupKey a kv.1).isNone) k =
      match lookupKey a k with
      | some _ => none
      | none => lookupKey b k := by
  induction b with
  | nil =>
    cases lookupKey a k <;> simp [lookupKey]
  | cons kv rest ih =>
    by_cases hk : kv.1 = k
    · subst hk
      cases ha : lookupKey a kv.1 <;>
        simp [List.filter_cons, ha, lookupKey, ih]
    · cases ha : lookupKey a kv.1 <;>
        cases hb : lookupKey a k <;>
          simp [List.filter_cons, ha, hb, lookupKey, hk, ih]

theorem lookupKey_dictMerge (a b : List (String × List String)) (k : String) :
    lookupKey (dictMerge a b) k =
      match lookupKey b k with
      | some w => some w
      | none => lookupKey a k := by
  unfold dictMerge
  rw [lookupKey_append, lookupKey_map_override, lookupKey_filter_isNone]
  cases ha : lookupKey a k <;> cases hb : lookupKey b k <;> simp

theorem dictMerge_ne_nil (a b : List (String × List String)) (h : a ≠ []) :
    dictMerge a b ≠ [] := by
  cases a with
  | nil => exact absurd rfl h
  | cons kv rest => simp [dictMerge]

/-! Semantics of the Python string predicates. -/

theorem pyStartswith_iff (s p : String) :
    pyStartswith s p = true ↔ p.data <+: s.data :=
  List.isPrefixOf_iff_prefix

theorem containsSub_iff (sub s : List Char) :
    containsSub sub s = true ↔ sub <:+: s := by
  induction s with
  | nil => simp [containsSub, List.isEmpty_iff]
  | cons c tail ih =>
    simp [containsSub, List.isPrefixOf_iff_prefix, ih, List.infix_cons_iff]

theorem pyContains_iff (s sub : String) :
    pyContains s sub = true ↔ sub.data <:+: s.data := by
  simp [pyContains, containsSub_iff]

/-- C1: the Merge step is a Python dict merge, not a union of reference sets.
On `mfBoth` with upstream `up`, node `model.down.a` appears in both
`parent_refs` (with reference `model.up.x`) and `node_refs` (with reference
`source.down.up.y`); the merged mapping keeps only the `node_refs` list, so its
value is not the union of the two reference sets — `model.up.x` is lost. -/
theorem all_refs_overlap_drops_parent_refs :
    lookupKey (find_cross_project_refs mfBoth "up") "model.down.a" =
        some ["model.up.x"] ∧
      lookupKey (find_cross_project_refs_in_nodes mfBoth "up") "model.down.a" =
        some ["source.down.up.y"] ∧
      lookupKey (all_refs mfBoth "up") "model.down.a" =
        some ["source.down.up.y"] ∧
      ¬ ("model.up.x" ∈ ["source.down.up.y"]) := by
  refine ⟨by decide, by decide, by decide, by decide⟩

/-- C1 (amended): the key set of the merged mapping is the union of the key
sets of `parent_refs` and `node_refs`, but for a node bound in both, the merged
mapping carries the `node_refs` list alone (the second unpacking in
`\x7b**parent_refs, **node_refs\x7d` replaces the first), not the union of the
two reference sets. -/
theorem all_refs_merge_characterization (m : Manifest) (up k : String) :
    (lookupKey (all_refs m up) k =
      match lookupKey (find_cross_project_refs_in_nodes m up) k with
      | some w => some w
      | none => lookupKey (find_cross_project_refs m up) k) ∧
    ((lookupKey (all_refs m up) k).isSome =
      ((lookupKey (find_cross_project_refs m up) k).isSome ||
        (lookupKey (find_cross_project_refs_in_nodes m up) k).isSome)) := by
  refine ⟨lookupKey_dictMerge _ _ _, ?_⟩
  rw [all_refs, lookupKey_dictMerge]
  cases lookupKey (find_cross_project_refs m up) k <;>
    cases lookupKey (find_cross_project_refs_in_nodes m up) k <;> simp

/-- C3: the cross-project matcher of `find_cross_project_refs` accepts a
reference exactly when it starts with `model.<upstream>.`, or starts with
`source.` and contains `.<upstream>.` (Python `and` binding tighter than
`or`); each convention alone suffices, and `model.<other_project>.x`
matches neither. -/
theorem isUpstreamParent_characterization :
    (∀ up ref : String,
      isUpstreamParent up ref = true ↔
        (("model." ++ up ++ ".").data <+: ref.data ∨
          ("source.".data <+: ref.data ∧ ("." ++ up ++ ".").data <:+: ref.data))) ∧
    isUpstreamParent "dbt_up" "model.dbt_up.orders" = true ∧
    isUpstreamParent "dbt_up" "source.down.dbt_up.orders" = true ∧
    isUpstreamParent "dbt_up" "model.other_project.orders" = false := by
  refine ⟨fun up ref => ?_, by decide, by decide, by decide⟩
  simp [isUpstreamParent, pyStartswith_iff, pyContains_iff, and_comm]

/-- C2: `validate_lineage` classifies exactly as specified — FAIL with the
no-references diagnostic when the merged mapping is empty, PASS with the strong
diagnostic when `parent_refs` is non-empty, PASS with the distinct partial
diagnostic when only `node_refs` matched; the boolean alone is merged-non-empty
and cannot separate the two PASS kinds. -/
theorem validate_lineage_classification (m : Manifest) (up : String) :
    ((validate_lineage_core m up).1 = !(all_refs m up).isEmpty) ∧
    (all_refs m up = [] → validate_lineage_core m up = (false, noRefsMsg up)) ∧
    (find_cross_project_refs m up ≠ [] →
      validate_lineage_core m up = (true, strongMsg)) ∧
    (all_refs m up ≠ [] → find_cross_project_refs m up = [] →
      validate_lineage_core m up = (true, declaredOnlyMsg)) ∧
    strongMsg ≠ declaredOnlyMsg := by
  have hmsg : strongMsg ≠ declaredOnlyMsg := by decide
  refine ⟨?_, ?_, ?_, ?_, hmsg⟩
  · unfold validate_lineage_core all_refs
    by_cases hC :
        (dictMerge (find_cross_project_refs m up)
          (find_cross_project_refs_in_nodes m up)).isEmpty = true
    · simp [hC]
    · by_cases hP : (find_cross_project_refs m up).isEmpty = true <;>
        simp [hC, hP]
  · intro h
    unfold validate_lineage_core
    rw [all_refs] at h
    simp [h]
  · intro h
    have hC : dictMerge (find_cross_project_refs m up)
        (find_cross_project_refs_in_nodes m up) ≠ [] :=
      dictMerge_ne_nil _ _ h
    unfold validate_lineage_core
    simp [List.isEmpty_iff, hC, h]
  · intro hC hP
    rw [all_refs, hP] at hC
    unfold validate_lineage_core
    simp [List.isEmpty_iff, hP, hC]

/-- C2 witness: the three classification branches at concrete manifests. -/
theorem validate_lineage_classification_witness :
    validate_lineage_core mfNoRefs "up" = (false, noRefsMsg "up") ∧
    validate_lineage_core mfParentOnly "up" = (true, strongMsg) ∧
    validate_lineage_core mfNodeOnly "up" = (true, declaredOnlyMsg) :=
  ⟨(validate_lineage_classification mfNoRefs "up").2.1 (by decide),
    (validate_lineage_classification mfParentOnly "up").2.2.1 (by decide),
    (validate_lineage_classification mfNodeOnly "up").2.2.2.1 (by decide) (by decide)⟩

/-- C4 counterexample: a parsed manifest missing both `parent_map` and `nodes`
loads without any error — the absent required keys do not raise `FormatError`;
the validator then reports "no references found" instead. -/
theorem load_manifest_missing_keys_no_error :
    load_manifest (.parsed mfMissingKeys) = .ok mfMissingKeys ∧
    validate_lineage (.parsed mfMissingKeys) "dbt_up" =
      .ok (false, noRefsMsg "dbt_up") :=
  ⟨rfl, rfl⟩

/-- C4 (amended): loading fails with `NotFoundError` exactly when the file is
absent and with `FormatError` exactly when the content is unparseable; an
absent required key is not a load error — the lookups default it, so a missing
key behaves exactly like an empty one and yields "no references found". -/
theorem load_manifest_error_classification :
    (∀ f : ManifestFile,
      (load_manifest f = .error (.notFoundError "Manifest not found") ↔
        f = .absent) ∧
      (load_manifest f = .error (.formatError "Expecting value") ↔
        f = .unparseable)) ∧
    (∀ m : Manifest, load_manifest (.parsed m) = .ok m) ∧
    (∀ up : String,
      validate_lineage_core mfMissingKeys up = (false, noRefsMsg up) ∧
      validate_lineage_core mfMissingKeys up = validate_lineage_core mfEmptyKeys up) := by
  refine ⟨fun f => ?_, fun m => rfl, fun up => ?_⟩
  · cases f <;> simp [load_manifest]
  · constructor <;>
      simp [validate_lineage_core, find_cross_project_refs,
        find_cross_project_refs_in_nodes, mfMissingKeys, mfEmptyKeys, dictMerge]

/-- The batch fold with a general accumulator: it conjoins the result booleans
and appends the results in order. -/
theorem main_batch_fold (files : List ManifestFile) (up : String) (b : Bool)
    (rs : List (Bool × String)) :
    (files.foldl
      (fun acc f =>
        let r := run_one f up
        (acc.1 && r.1, acc.2 ++ [r]))
      (b, rs)) =
      (b && ((files.map fun f => run_one f up).all fun r => r.1),
        rs ++ (files.map fun f => run_one f up)) := by
  induction files generalizing b rs with
  | nil => simp
  | cons f rest ih => simp [ih, Bool.and_assoc]

/-- C5: in batch mode every manifest is evaluated (one result per input, in
order), the overall boolean is the conjunction of the per-manifest booleans,
the exit code is zero exactly when that conjunction holds, and a manifest
whose load raises (absent file or parse failure) is recorded as FAIL. -/
theorem batch_result_is_conjunction (files : List ManifestFile) (up : String) :
    ((main_batch files up).2 = files.map fun f => run_one f up) ∧
    ((main_batch files up).2.length = files.length) ∧
    ((main_batch files up).1 = ((main_batch files up).2.all fun r => r.1)) ∧
    (exit_code files up = 0 ↔
      ((main_batch files up).2.all fun r => r.1) = true) ∧
    (run_one .absent up).1 = false ∧
    (run_one .unparseable up).1 = false := by
  have h := main_batch_fold files up true []
  have h2 : main_batch files up =
      ((files.map fun f => run_one f up).all fun r => r.1,
        files.map fun f => run_one f up) := by
    rw [main_batch, h]
    simp
  refine ⟨by rw [h2], by rw [h2]; simp, by rw [h2], ?_, rfl, rfl⟩
  rw [exit_code, h2]
  split <;> simp_all

/-- C6: publishing twice into the same `(project, environment)` with two
different timestamps yields, on both backends, the same latest location twice
(it does not depend on the timestamp), two distinct history locations, and a
registry whose latest partition holds the content of the second publish. -/
theorem publish_twice_partitions (c1 c2 project env t1 t2 bucket : String)
    (registry : List String) (fs : FsStore) (s3 : S3Store) (hne : t1 ≠ t2) :
    ((publish_local c1 project env t1 registry fs).2.1 =
      (publish_local c2 project env t2 registry
        (publish_local c1 project env t1 registry fs).1).2.1) ∧
    ((publish_local c1 project env t1 registry fs).2.2 ≠
      (publish_local c2 project env t2 registry
        (publish_local c1 project env t1 registry fs).1).2.2) ∧
    (read_fs
      (publish_local c2 project env t2 registry
        (publish_local c1 project env t1 registry fs).1).1
      (publish_local c2 project env t2 registry
        (publish_local c1 project env t1 registry fs).1).2.1 = some c2) ∧
    ((publish_s3 c1 project env bucket t1 s3).2.1 =
      (publish_s3 c2 project env bucket t2
        (publish_s3 c1 project env bucket t1 s3).1).2.1) ∧
    ((publish_s3 c1 project env bucket t1 s3).2.2 ≠
      (publish_s3 c2 project env bucket t2
        (publish_s3 c1 project env bucket t1 s3).1).2.2) ∧
    (read_s3
      (publish_s3 c2 project env bucket t2
        (publish_s3 c1 project env bucket t1 s3).1).1
      ("registry/" ++ project ++ "/" ++ env ++ "/latest/manifest.json") =
        some c2) := by
  refine ⟨rfl, ?_, ?_, rfl, ?_, ?_⟩
  · intro h
    simp [publish_local] at h
    exact hne h
  · have hlh : registry ++ [project, env, "history", t2, "manifest.json"] ≠
        registry ++ [project, env, "latest", "manifest.json"] := by simp
    simp [publish_local, write_fs, read_fs, hlh]
  · intro h
    simp [publish_s3] at h
    have hd := congrArg String.data h
    simp [String.data_append, String.data] at hd
    exact hne (by cases t1; cases t2; cases hd; rfl)
  · have hlh :
        ("registry/" ++ project ++ "/" ++ env ++ "/history/" ++ t2 ++
          "/manifest.json") ≠
        ("registry/" ++ project ++ "/" ++ env ++ "/latest/manifest.json") := by
      intro h
      have hd := congrArg String.data h
      simp [String.data_append, String.data] at hd
    simp [publish_s3, write_s3, read_s3, hlh]

/-- C6 witness: two publishes of contents `v1` then `v2` at concrete distinct
timestamps, on an empty registry and an empty bucket. -/
theorem publish_twice_partitions_witness :
    ((publish_local "v1" "dbt_up" "prod" "20240101T000000Z" ["registry"] []).2.1 =
      (publish_local "v2" "dbt_up" "prod" "20240101T000001Z" ["registry"]
        (publish_local "v1" "dbt_up" "prod" "20240101T000000Z" ["registry"] []).1).2.1) ∧
    ((publish_local "v1" "dbt_up" "prod" "20240101T000000Z" ["registry"] []).2.2 ≠
      (publish_local "v2" "dbt_up" "prod" "20240101T000001Z" ["registry"]
        (publish_local "v1" "dbt_up" "prod" "20240101T000000Z" ["registry"] []).1).2.2) ∧
    (read_fs
      (publish_local "v2" "dbt_up" "prod" "20240101T000001Z" ["registry"]
        (publish_local "v1" "dbt_up" "prod" "20240101T000000Z" ["registry"] []).1).1
      (publish_local "v2" "dbt_up" "prod" "20240101T000001Z" ["registry"]
        (publish_local "v1" "dbt_up" "prod" "20240101T000000Z" ["registry"] []).1).2.1 =
        some "v2") ∧
    ((publish_s3 "v1" "dbt_up" "prod" "mesh-bucket" "20240101T000000Z" []).2.1 =
      (publish_s3 "v2" "dbt_up" "prod" "mesh-bucket" "20240101T000001Z"
        (publish_s3 "v1" "dbt_up" "prod" "mesh-bucket" "20240101T000000Z" []).1).2.1) ∧
    ((publish_s3 "v1" "dbt_up" "prod" "mesh-bucket" "20240101T000000Z" []).2.2 ≠
      (publish_s3 "v2" "dbt_up" "prod" "mesh-bucket" "20240101T000001Z"
        (publish_s3 "v1" "dbt_up" "prod" "mesh-bucket" "20240101T000000Z" []).1).2.2) ∧
    (read_s3
      (publish_s3 "v2" "dbt_up" "prod" "mesh-bucket" "20240101T000001Z"
        (publish_s3 "v1" "dbt_up" "prod" "mesh-bucket" "20240101T000000Z" []).1).1
      ("registry/" ++ "dbt_up" ++ "/" ++ "prod" ++ "/latest/manifest.json") =
        some "v2") :=
  publish_twice_partitions "v1" "v2" "dbt_up" "prod" "20240101T000000Z"
    "20240101T000001Z" "mesh-bucket" ["registry"] [] [] (by decide)

/-- `mfParentOnly` with a different `nodes` mapping but the same `parent_map`. -/
def mfParentOnlyB : Manifest :=
  { parent_map := some [("model.down.a", ["model.up.x"])],
    nodes := some [("model.down.a",
      { resource_type := some "model", access := some "public",
        depends_on := none })],
    metadata := none }

/-- `mfNodeOnly` with a different `parent_map` but the same `nodes` mapping. -/
def mfNodeOnlyB : Manifest :=
  { parent_map := some [("model.down.z", ["model.down.w"])],
    nodes := some [("model.down.a",
      { resource_type := some "model", access := none,
        depends_on := some { nodes := some ["source.down.up.y"] } })],
    metadata := none }

/-- C7: the matching predicate of the `depends_on` pass agrees with the one of
the `parent_map` pass on every identifier and upstream name, and the two
extraction passes are independent — each is a function of its own input
mapping alone. -/
theorem matching_logic_identical :
    (∀ up s : String, isUpstreamDep up s = isUpstreamParent up s) ∧
    (∀ (m m' : Manifest) (up : String), m.parent_map = m'.parent_map →
      find_cross_project_refs m up = find_cross_project_refs m' up) ∧
    (∀ (m m' : Manifest) (up : String), m.nodes = m'.nodes →
      find_cross_project_refs_in_nodes m up = find_cross_project_refs_in_nodes m' up) := by
  refine ⟨fun up s => rfl, fun m m' up h => ?_, fun m m' up h => ?_⟩
  · simp [find_cross_project_refs, h]
  · simp [find_cross_project_refs_in_nodes, h]

/-- C7 witness: the predicates agree at a concrete source-style reference, and
each pass is unchanged when only the other pass's input differs. -/
theorem matching_logic_identical_witness :
    isUpstreamDep "dbt_up" "source.a.dbt_up.b" =
        isUpstreamParent "dbt_up" "source.a.dbt_up.b" ∧
    find_cross_project_refs mfParentOnly "up" =
        find_cross_project_refs mfParentOnlyB "up" ∧
    find_cross_project_refs_in_nodes mfNodeOnly "up" =
        find_cross_project_refs_in_nodes mfNodeOnlyB "up" :=
  ⟨matching_logic_identical.1 "dbt_up" "source.a.dbt_up.b",
    matching_logic_identical.2.1 mfParentOnly mfParentOnlyB "up" rfl,
    matching_logic_identical.2.2 mfNodeOnly mfNodeOnlyB "up" rfl⟩

/-- The advisory-warning flag of a publisher outcome, when it published. -/
def warnedOf : Except PubError (Bool × Location × Location) → Option Bool
  | .ok r => some r.1
  | .error _ => none

/-- The two published locations of a publisher outcome, when it published. -/
def locationsOf : Except PubError (Bool × Location × Location) →
    Option (Location × Location)
  | .ok r => some r.2
  | .error _ => none

/-- The error of a publisher outcome, when it failed. -/
def errOf : Except PubError (Bool × Location × Location) → Option PubError
  | .ok _ => none
  | .error e => some e

/-- C8: the public-model scan is advisory only — replacing the parsed nodes by
any other nodes changes neither the stores, nor the published locations, nor
whether or how the publisher fails; with an empty public-model set the run
still publishes, merely with the warning flag set (in both backends). -/
theorem public_model_scan_advisory (raw : String) (m m' : Manifest)
    (localMode : Bool) (bucket : Option String) (env project : String)
    (registry : List String) (t : String) (fs : FsStore) (s3 : S3Store) :
    ((publisher_main (.present raw m) localMode bucket env project registry t fs s3).2 =
      (publisher_main (.present raw m') localMode bucket env project registry t fs s3).2) ∧
    (locationsOf
        (publisher_main (.present raw m) localMode bucket env project registry t fs s3).1 =
      locationsOf
        (publisher_main (.present raw m') localMode bucket env project registry t fs s3).1) ∧
    (errOf
        (publisher_main (.present raw m) localMode bucket env project registry t fs s3).1 =
      errOf
        (publisher_main (.present raw m') localMode bucket env project registry t fs s3).1) ∧
    (warnedOf
        (publisher_main (.present raw m) true bucket env project registry t fs s3).1 =
      some (public_models m).isEmpty) ∧
    (∀ b : String,
      warnedOf
          (publisher_main (.present raw m) false (some b) env project registry t fs s3).1 =
        some (public_models m).isEmpty) := by
  cases localMode <;> cases bucket <;>
    simp [publisher_main, warnedOf, locationsOf, errOf]

/-- C9: when the manifest file is absent the publisher fails with
`NotFoundError` and both the local store and the S3 store are returned exactly
as given — no latest or history partition is created or modified. -/
theorem publish_fail_closed_on_absent (localMode : Bool) (bucket : Option String)
    (env project : String) (registry : List String) (t : String)
    (fs : FsStore) (s3 : S3Store) :
    publisher_main .absent localMode bucket env project registry t fs s3 =
      (.error (.notFoundError manifestMissingMsg), fs, s3) := rfl

/-- C10: every entry of either extraction result has a non-empty reference
list, each reference matches the cross-project predicate, each reference comes
from the node's own input list, and the node identifier is a key of the input
mapping — nodes without matching references are omitted entirely. -/
theorem extraction_invariants (m : Manifest) (up k : String) (l : List String) :
    ((k, l) ∈ find_cross_project_refs m up →
      l ≠ [] ∧ (∀ r ∈ l, isUpstreamParent up r = true) ∧
      ∃ ps, (k, ps) ∈ m.parent_map.getD [] ∧ ∀ r ∈ l, r ∈ ps) ∧
    ((k, l) ∈ find_cross_project_refs_in_nodes m up →
      l ≠ [] ∧ (∀ r ∈ l, isUpstreamDep up r = true) ∧
      ∃ node, (k, node) ∈ m.nodes.getD [] ∧ ∀ r ∈ l, r ∈ dependsOnNodes node) := by
  constructor
  · intro h
    rw [find_cross_project_refs] at h
    rcases List.mem_filterMap.mp h with ⟨kv, hkv, hf⟩
    by_cases he : (kv.2.filter (isUpstreamParent up)).isEmpty = true
    · simp [he] at hf
    · simp [he] at hf
      obtain ⟨hk, hl⟩ := hf
      subst hk
      refine ⟨?_, ?_, kv.2, ?_, ?_⟩
      · rw [← hl]
        simpa [List.isEmpty_iff] using he
      · intro r hr
        rw [← hl] at hr
        exact (List.mem_filter.mp hr).2
      · simpa using hkv
      · intro r hr
        rw [← hl] at hr
        exact (List.mem_filter.mp hr).1
  · intro h
    rw [find_cross_project_refs_in_nodes] at h
    rcases List.mem_filterMap.mp h with ⟨kv, hkv, hf⟩
    by_cases he : ((dependsOnNodes kv.2).filter (isUpstreamDep up)).isEmpty = true
    · simp [he] at hf
    · simp [he] at hf
      obtain ⟨hk, hl⟩ := hf
      subst hk
      refine ⟨?_, ?_, kv.2, ?_, ?_⟩
      · rw [← hl]
        simpa [List.isEmpty_iff] using he
      · intro r hr
        rw [← hl] at hr
        exact (List.mem_filter.mp hr).2
      · simpa using hkv
      · intro r hr
        rw [← hl] at hr
        exact (List.mem_filter.mp hr).1

/-- C10 witness: the invariant instantiated at both extraction passes over
`mfBoth`. -/
theorem extraction_invariants_witness :
    (("model.down.a", ["model.up.x"]) ∈ find_cross_project_refs mfBoth "up" ∧
      (["model.up.x"] ≠ ([] : List String) ∧
        (∀ r ∈ ["model.up.x"], isUpstreamParent "up" r = true) ∧
        ∃ ps, ("model.down.a", ps) ∈ mfBoth.parent_map.getD [] ∧
          ∀ r ∈ ["model.up.x"], r ∈ ps)) ∧
    (("model.down.a", ["source.down.up.y"]) ∈
        find_cross_project_refs_in_nodes mfBoth "up" ∧
      (["source.down.up.y"] ≠ ([] : List String) ∧
        (∀ r ∈ ["source.down.up.y"], isUpstreamDep "up" r = true) ∧
        ∃ node, ("model.down.a", node) ∈ mfBoth.nodes.getD [] ∧
          ∀ r ∈ ["source.down.up.y"], r ∈ dependsOnNodes node)) :=
  ⟨⟨by decide,
      (extraction_invariants mfBoth "up" "model.down.a" ["model.up.x"]).1
        (by decide)⟩,
    ⟨by decide,
      (extraction_invariants mfBoth "up" "model.down.a" ["source.down.up.y"]).2
        (by decide)⟩⟩

end DbtUp
